import Mathlib

/-!
Shallow embedding of the todo-list application's state logic.

The repository has two variants of the same component:
* a remote-API variant (`script setup` using `apiRequest` against
  `http://localhost:8080`): types `Todo`, `ServerTodo`, `RawTodo` and the
  operations `fetchTodos`, `addTodo`, `toggleTodo`, `saveEdit`, `deleteTodo`,
  `clearCompleted`, `startEditing`, `cancelEdit`, `filteredTodos`,
  `activeTodosCount`;
* a localStorage variant (`src/App.vue`): type `LTodo` and the operations
  prefixed `local…`.

Network and storage effects are made explicit: each remote operation takes the
outcome of its HTTP request as an `Except ApiError _` argument and returns the
new collection together with the list of `ApiCall`s it issued; each local
operation returns the new collection together with the optional storage write
(the JSON value passed to `localStorage.setItem`, an explicit `Json` term so
that the serialized field set is visible).
-/

/-- Minimal model of a JSON value, used for request bodies and for the
serialized form written to localStorage. -/
inductive Json where
  | null
  | bool (b : Bool)
  | num (n : Int)
  | str (s : String)
  | arr (items : List Json)
  | obj (fields : List (String × Json))

/-- Field lookup in a JSON object (first occurrence of the key). -/
def Json.lookupField (j : Json) (key : String) : Option Json :=
  match j with
  | .obj fields => (fields.find? (fun p => p.1 == key)).map (fun p => p.2)
  | _ => none

/-- JavaScript truthiness of a JSON value, as used by `Boolean(todo.completed)`
and by `x || y` chains. -/
def Json.truthy : Json → Bool
  | .null => false
  | .bool b => b
  | .num n => n != 0
  | .str s => s != ""
  | .arr _ => true
  | .obj _ => true

/-- Task record of the remote-API variant (`interface Todo` in the remote
component): `id`, `title`, `completed`, optional `createdAt`, and the
view-local `isEditing` flag. -/
structure Todo where
  id : Int
  title : String
  completed : Bool
  createdAt : Option String
  isEditing : Bool
deriving Repr, DecidableEq

/-- Task object as returned by the server for POST/PUT requests
(`newTodoData` / `updatedTodo` in the source). -/
structure ServerTodo where
  id : Int
  title : String
  completed : Bool
  createdAt : Option String
deriving Repr, DecidableEq

/-- Raw task-like item as it arrives from `GET /todos`, before normalization:
`title` and `text` may each be absent, and `completed` is an arbitrary JSON
value that the source coerces with `Boolean(...)`. -/
structure RawTodo where
  id : Int
  title : Option String := none
  text : Option String := none
  completed : Json := Json.null
  createdAt : Option String := none

/-- Task record of the localStorage variant (`interface Todo` in
`src/App.vue`): note the `text` field in place of `title`. -/
structure LTodo where
  id : Int
  text : String
  completed : Bool
  createdAt : Int
  isEditing : Bool
deriving Repr, DecidableEq

/-- Error taxonomy of the HTTP client wrapper. -/
inductive ApiError where
  | connectivity
  | request
  | format
deriving Repr, DecidableEq

/-- Record of one HTTP request issued by an operation. -/
structure ApiCall where
  endpoint : String
  method : String
  body : Option Json

/-! ### HTTP client wrapper: construction of the `fetch` init object

`apiRequest` builds the second argument of `fetch` as

    \x7b headers: \x7b 'Content-Type': 'application/json', ...options.headers \x7d,
      ...options \x7d

`RequestInitM` models the `RequestInit` options object restricted to the
fields this app ever passes; a `none` field models an absent key, so object
spread is `Option.orElse` field by field. -/

/-- Options object passed to `apiRequest` / init object passed to `fetch`. -/
structure RequestInitM where
  method : Option String := none
  body : Option String := none
  headers : Option (List (String × String)) := none
deriving Repr, DecidableEq

/-- JavaScript object spread `\x7b ...base, ...extra \x7d` on string-keyed
records: keys of `extra` override keys of `base`. -/
def objSpread (base extra : List (String × String)) : List (String × String) :=
  base.filter (fun p => !(extra.any (fun q => q.1 == p.1))) ++ extra

/-- Default header object literal of `apiRequest`. -/
def defaultHeaders : List (String × String) := [("Content-Type", "application/json")]

/-- Spread of `options` over a base init object, field by field
(`\x7b ...base, ...options \x7d`: a field present in `options` overrides). -/
def spreadInit (base options : RequestInitM) : RequestInitM :=
  { method := options.method.orElse (fun _ => base.method)
    body := options.body.orElse (fun _ => base.body)
    headers := options.headers.orElse (fun _ => base.headers) }

/-- Init object that `apiRequest` actually hands to `fetch`: first a base
object whose `headers` field is the default merged with `options.headers`,
then `...options` spread over it. -/
def apiRequestInit (options : RequestInitM) : RequestInitM :=
  spreadInit
    { method := none
      body := none
      headers := some (objSpread defaultHeaders (options.headers.getD [])) }
    options

/-- Lookup of a header value by name in a header list. -/
def lookupHeader (hs : List (String × String)) (key : String) : Option String :=
  (hs.find? (fun p => p.1 == key)).map (fun p => p.2)

/-- JavaScript `String.prototype.trim`: removal of leading and trailing
whitespace, embedded over the character list so that it evaluates by
reduction. -/
def jsTrim (s : String) : String :=
  ⟨((s.data.dropWhile Char.isWhitespace).reverse.dropWhile Char.isWhitespace).reverse⟩

/-! ### Normalization of raw server items (`fetchTodos` mapping) -/

/-- JavaScript `x || y` on an optional string against a string fallback:
an absent or empty (falsy) string falls through to the fallback. -/
def orStr (x : Option String) (y : String) : String :=
  match x with
  | some s => if s = "" then y else s
  | none => y

/-- Normalization of one raw item, as in the `todoArray.map` of `fetchTodos`:
`title: todo.title || todo.text || ''`, `completed: Boolean(todo.completed)`,
`isEditing: false`. -/
def normalizeTodo (r : RawTodo) : Todo :=
  { id := r.id
    title := orStr r.title (orStr r.text "")
    completed := r.completed.truthy
    createdAt := r.createdAt
    isEditing := false }

/-- Shape of a successful `GET /todos` payload: either a raw array, or an
object whose `todos` field (possibly absent) wraps the array
(`Array.isArray(data) ? data : (data.todos || [])`). -/
inductive FetchData where
  | arr (items : List RawTodo)
  | obj (todos : Option (List RawTodo))

/-- Extraction of the raw item array from a fetch payload. -/
def extractTodoArray : FetchData → List RawTodo
  | .arr items => items
  | .obj (some items) => items
  | .obj none => []

/-- The `GET /todos` request issued by `fetchTodos`. -/
def fetchCall : ApiCall := { endpoint := "/todos", method := "GET", body := none }

/-- The `fetchTodos` operation: on success the collection is replaced by the
normalized payload; on failure the error is logged and the collection is left
untouched. -/
def fetchTodos (todos : List Todo) (resp : Except ApiError FetchData) :
    List Todo × List ApiCall :=
  match resp with
  | .ok data => ((extractTodoArray data).map normalizeTodo, [fetchCall])
  | .error _ => (todos, [fetchCall])

/-! ### Remote mutation operations -/

/-- Body of the `POST /todos` request: `JSON.stringify(\x7b title \x7d)`. -/
def addBody (title : String) : Json :=
  Json.obj [("title", Json.str title)]

/-- Body of a `PUT /todos/:id` request:
`JSON.stringify(\x7b title, completed \x7d)`. -/
def updateBody (title : String) (completed : Bool) : Json :=
  Json.obj [("title", Json.str title), ("completed", Json.bool completed)]

/-- The `addTodo` operation: a no-op when the trimmed input is empty
(`if (!newTodo.value.trim()) return`); otherwise a POST whose successful
response is unshifted onto the front of the collection; on failure the
collection is unchanged. -/
def addTodo (todos : List Todo) (newTodo : String)
    (resp : Except ApiError ServerTodo) : List Todo × List ApiCall :=
  if jsTrim newTodo = "" then (todos, [])
  else
    let call : ApiCall :=
      { endpoint := "/todos", method := "POST", body := some (addBody (jsTrim newTodo)) }
    match resp with
    | .ok d =>
        ({ id := d.id, title := d.title, completed := d.completed || false
           createdAt := d.createdAt, isEditing := false } :: todos, [call])
    | .error _ => (todos, [call])

/-- In-place mutation of the first record with a given id, modelling JS
mutation of the object returned by `todos.value.find(t => t.id === id)`. -/
def updateFirst (todos : List Todo) (id : Int) (f : Todo → Todo) : List Todo :=
  match todos with
  | [] => []
  | t :: ts => if t.id == id then f t :: ts else t :: updateFirst ts id f

/-- The `toggleTodo` operation: optimistic flip of `completed`, `PUT` carrying
the current title and the new value; on success the server's `completed` wins;
on failure `completed` is set back to `originalCompleted`. -/
def toggleTodo (todos : List Todo) (id : Int)
    (resp : Except ApiError ServerTodo) : List Todo × List ApiCall :=
  match todos.find? (fun t => t.id == id) with
  | none => (todos, [])
  | some todo =>
    let call : ApiCall :=
      { endpoint := "/todos/" ++ toString id, method := "PUT"
        body := some (updateBody todo.title (!todo.completed)) }
    match resp with
    | .ok updated =>
        (updateFirst todos id (fun t => { t with completed := updated.completed }), [call])
    | .error _ =>
        (updateFirst todos id (fun t => { t with completed := todo.completed }), [call])

/-- The `saveEdit` operation (rename): empty trimmed input behaves as
`cancelEdit`; otherwise the trimmed title is applied optimistically and the
editing flag cleared, then a `PUT` is issued; on success the server's title
wins; on failure the original title is restored and editing re-entered. -/
def saveEdit (todos : List Todo) (id : Int) (edited : String)
    (resp : Except ApiError ServerTodo) : List Todo × List ApiCall :=
  match todos.find? (fun t => t.id == id) with
  | none => (todos, [])
  | some todo =>
    if jsTrim edited = "" then
      (updateFirst todos id (fun t => { t with isEditing := false }), [])
    else
      let call : ApiCall :=
        { endpoint := "/todos/" ++ toString id, method := "PUT"
          body := some (updateBody (jsTrim edited) todo.completed) }
      match resp with
      | .ok updated =>
          (updateFirst todos id
            (fun t => { t with title := updated.title, isEditing := false }), [call])
      | .error _ =>
          (updateFirst todos id
            (fun t => { t with title := todo.title, isEditing := true }), [call])

/-- JavaScript `Array.prototype.findIndex`, with `none` standing for `-1`. -/
def findIndex (p : Todo → Bool) : List Todo → Option Nat
  | [] => none
  | t :: ts => if p t then some 0 else (findIndex p ts).map (fun i => i + 1)

/-- The `deleteTodo` operation: the record is removed optimistically
(`filter(t => t.id !== id)`, its index and value saved first), a `DELETE` is
issued, and on failure the backup is spliced back at its original index. -/
def deleteTodo (todos : List Todo) (id : Int)
    (resp : Except ApiError Unit) : List Todo × List ApiCall :=
  match findIndex (fun t => t.id == id) todos with
  | none => (todos, [])
  | some todoIndex =>
    match todos[todoIndex]? with
    | none => (todos, [])
    | some todoBackup =>
      let filtered := todos.filter (fun t => !(t.id == id))
      let call : ApiCall :=
        { endpoint := "/todos/" ++ toString id, method := "DELETE", body := none }
      match resp with
      | .ok _ => (filtered, [call])
      | .error _ => (filtered.insertIdx todoIndex todoBackup, [call])

/-- The `clearCompleted` operation: one concurrent `DELETE` per completed
record via `Promise.all`; if all settle successfully the completed records are
filtered out locally; if any rejects, `fetchTodos` is re-run instead and its
outcome is the final state. -/
def clearCompleted (todos : List Todo) (deleteResult : Int → Except ApiError Unit)
    (reloadResp : Except ApiError FetchData) : List Todo × List ApiCall :=
  let completedTodos := todos.filter (fun t => t.completed)
  let calls := completedTodos.map (fun t =>
    ({ endpoint := "/todos/" ++ toString t.id, method := "DELETE", body := none } : ApiCall))
  if completedTodos.all (fun t => (deleteResult t.id).isOk) then
    (todos.filter (fun t => !t.completed), calls)
  else
    let reloaded := fetchTodos todos reloadResp
    (reloaded.1, calls ++ reloaded.2)

/-- The `startEditing` operation: sets the record's editing flag; no network
call. -/
def startEditing (todos : List Todo) (id : Int) : List Todo :=
  updateFirst todos id (fun t => { t with isEditing := true })

/-- The `cancelEdit` operation: clears the record's editing flag; no network
call. -/
def cancelEdit (todos : List Todo) (id : Int) : List Todo :=
  updateFirst todos id (fun t => { t with isEditing := false })

/-! ### Derived views (both variants define the same two projections) -/

/-- Filter mode of the list view. -/
inductive FilterMode where
  | all
  | active
  | completed
deriving Repr, DecidableEq

/-- The `filteredTodos` computed view of the remote variant: a shallow copy
(`[...todos.value]`) filtered by status, order preserved. -/
def filteredTodos (todos : List Todo) : FilterMode → List Todo
  | .active => todos.filter (fun t => !t.completed)
  | .completed => todos.filter (fun t => t.completed)
  | .all => todos

/-- The `activeTodosCount` computed view of the remote variant. -/
def activeTodosCount (todos : List Todo) : Nat :=
  (todos.filter (fun t => !t.completed)).length

/-! ### localStorage variant (`src/App.vue`)

Every mutation ends with `saveTodos()`, i.e.
`localStorage.setItem('todos', JSON.stringify(todos.value))`. Each operation
therefore returns the new collection together with the optional storage write,
given as the serialized `Json` value so that the set of persisted fields is
explicit. `Date.now()` is passed in as the `now` argument. -/

/-- Serialization of one local record, as produced by `JSON.stringify`: every
present field of the object is written, `isEditing` included. -/
def serializeLTodo (t : LTodo) : Json :=
  Json.obj
    [("id", Json.num t.id), ("text", Json.str t.text),
     ("completed", Json.bool t.completed), ("createdAt", Json.num t.createdAt),
     ("isEditing", Json.bool t.isEditing)]

/-- Serialization of the whole local collection (`JSON.stringify(todos.value)`). -/
def serializeLTodos (todos : List LTodo) : Json :=
  Json.arr (todos.map serializeLTodo)

/-- The local mount-time load: `JSON.parse(localStorage.getItem('todos'))`
replaces the collection verbatim when the slot is non-empty; no
normalization is applied to the parsed records. -/
def localLoad (todos : List LTodo) (stored : Option (List LTodo)) : List LTodo :=
  match stored with
  | some saved => saved
  | none => todos

/-- In-place mutation of the first local record with a given id. -/
def updateFirstL (todos : List LTodo) (id : Int) (f : LTodo → LTodo) : List LTodo :=
  match todos with
  | [] => []
  | t :: ts => if t.id == id then f t :: ts else t :: updateFirstL ts id f

/-- The local `addTodo`: when the trimmed input is non-empty, unshifts a new
record with `id: Date.now()` and `createdAt: Date.now()` and writes storage;
otherwise nothing happens. -/
def localAddTodo (todos : List LTodo) (newTodo : String) (now : Int) :
    List LTodo × Option Json :=
  if jsTrim newTodo = "" then (todos, none)
  else
    let t : LTodo :=
      { id := now, text := jsTrim newTodo, completed := false
        createdAt := now, isEditing := false }
    (t :: todos, some (serializeLTodos (t :: todos)))

/-- The local `toggleTodo`: flips `completed` of the found record and writes
storage; a miss is a no-op with no write. -/
def localToggleTodo (todos : List LTodo) (id : Int) : List LTodo × Option Json :=
  match todos.find? (fun t => t.id == id) with
  | none => (todos, none)
  | some _ =>
    let updated := updateFirstL todos id (fun t => { t with completed := !t.completed })
    (updated, some (serializeLTodos updated))

/-- The local `deleteTodo`: filters the record out and writes storage
unconditionally. -/
def localDeleteTodo (todos : List LTodo) (id : Int) : List LTodo × Option Json :=
  let updated := todos.filter (fun t => !(t.id == id))
  (updated, some (serializeLTodos updated))

/-- The local `clearCompleted`: drops completed records and writes storage. -/
def localClearCompleted (todos : List LTodo) : List LTodo × Option Json :=
  let updated := todos.filter (fun t => !t.completed)
  (updated, some (serializeLTodos updated))

/-- The local `saveEdit`: when the trimmed edit buffer is non-empty, replaces
`text`, clears the editing flag and writes storage; otherwise nothing
happens. -/
def localSaveEdit (todos : List LTodo) (id : Int) (edited : String) :
    List LTodo × Option Json :=
  if jsTrim edited = "" then (todos, none)
  else
    let updated :=
      updateFirstL todos id (fun t => { t with text := jsTrim edited, isEditing := false })
    (updated, some (serializeLTodos updated))

/-- The local `startEditing`: sets the record's editing flag; no write. -/
def localStartEditing (todos : List LTodo) (id : Int) : List LTodo :=
  updateFirstL todos id (fun t => { t with isEditing := true })

/-- The local `cancelEdit`: clears the record's editing flag; no write. -/
def localCancelEdit (todos : List LTodo) (id : Int) : List LTodo :=
  updateFirstL todos id (fun t => { t with isEditing := false })

/-- The `filteredTodos` computed view of the local variant (identical
filtering logic on `LTodo`). -/
def localFilteredTodos (todos : List LTodo) : FilterMode → List LTodo
  | .active => todos.filter (fun t => !t.completed)
  | .completed => todos.filter (fun t => t.completed)
  | .all => todos

/-- The `activeTodosCount` computed view of the local variant. -/
def localActiveTodosCount (todos : List LTodo) : Nat :=
  (todos.filter (fun t => !t.completed)).length

/-! ### Reachability: operation sequences of each variant

The uniqueness claims quantify over "every sequence of operations"; the step
relations below enumerate one application of one operation with arbitrary
arguments and arbitrary request outcomes. The amended uniqueness invariant
carries environment side conditions on the constructors that introduce
externally chosen ids (server responses in the remote variant, `Date.now()`
and the parsed storage slot in the local variant). -/

/-- Ids of the remote collection. -/
def todoIds (todos : List Todo) : List Int := todos.map Todo.id

/-- Ids of the local collection. -/
def ltodoIds (todos : List LTodo) : List Int := todos.map LTodo.id

/-- One operation of the remote variant applied to the collection. The side
conditions state that the environment supplies duplicate-free data: any
successfully loaded payload has distinct ids and any successfully created
record has a fresh id. -/
inductive RStep : List Todo → List Todo → Prop where
  | fetch (s : List Todo) (resp : Except ApiError FetchData)
      (h : ∀ d, resp = Except.ok d → ((extractTodoArray d).map RawTodo.id).Nodup) :
      RStep s (fetchTodos s resp).1
  | add (s : List Todo) (title : String) (resp : Except ApiError ServerTodo)
      (h : ∀ d, resp = Except.ok d → d.id ∉ todoIds s) :
      RStep s (addTodo s title resp).1
  | toggle (s : List Todo) (id : Int) (resp : Except ApiError ServerTodo) :
      RStep s (toggleTodo s id resp).1
  | rename (s : List Todo) (id : Int) (edited : String)
      (resp : Except ApiError ServerTodo) :
      RStep s (saveEdit s id edited resp).1
  | remove (s : List Todo) (id : Int) (resp : Except ApiError Unit) :
      RStep s (deleteTodo s id resp).1
  | clear (s : List Todo) (deleteResult : Int → Except ApiError Unit)
      (reloadResp : Except ApiError FetchData)
      (h : ∀ d, reloadResp = Except.ok d → ((extractTodoArray d).map RawTodo.id).Nodup) :
      RStep s (clearCompleted s deleteResult reloadResp).1
  | startEdit (s : List Todo) (id : Int) : RStep s (startEditing s id)
  | cancel (s : List Todo) (id : Int) : RStep s (cancelEdit s id)

/-- Remote states reachable from the empty collection. -/
def RReachable (s : List Todo) : Prop :=
  Relation.ReflTransGen RStep [] s

/-- One operation of the local variant applied to the collection. The side
conditions state that `Date.now()` never collides with an existing id and
that the parsed storage slot has distinct ids. -/
inductive LStep : List LTodo → List LTodo → Prop where
  | add (s : List LTodo) (title : String) (now : Int) (h : now ∉ ltodoIds s) :
      LStep s (localAddTodo s title now).1
  | toggle (s : List LTodo) (id : Int) : LStep s (localToggleTodo s id).1
  | remove (s : List LTodo) (id : Int) : LStep s (localDeleteTodo s id).1
  | clear (s : List LTodo) : LStep s (localClearCompleted s).1
  | rename (s : List LTodo) (id : Int) (edited : String) :
      LStep s (localSaveEdit s id edited).1
  | startEdit (s : List LTodo) (id : Int) : LStep s (localStartEditing s id)
  | cancel (s : List LTodo) (id : Int) : LStep s (localCancelEdit s id)
  | load (s : List LTodo) (stored : Option (List LTodo))
      (h : ∀ l, stored = some l → (ltodoIds l).Nodup) :
      LStep s (localLoad s stored)

/-- Local states reachable from the empty collection. -/
def LReachable (s : List LTodo) : Prop :=
  Relation.ReflTransGen LStep [] s

/-! ### Helper lemmas -/

/-- When the update function fixes the record that `find?` locates,
`updateFirst` is the identity. -/
theorem updateFirst_eq_self (todos : List Todo) (id : Int) (f : Todo → Todo)
    (h : ∀ t, todos.find? (fun t => t.id == id) = some t → f t = t) :
    updateFirst todos id f = todos := by
  induction todos with
  | nil => rfl
  | cons t ts ih =>
    by_cases hb : (t.id == id) = true
    · have hfind : (t :: ts).find? (fun t => t.id == id) = some t :=
        List.find?_cons_of_pos _ hb
      simp only [updateFirst, hb, if_true, h t hfind]
    · have hfind : (t :: ts).find? (fun t => t.id == id) = ts.find? (fun t => t.id == id) :=
        List.find?_cons_of_neg _ (by simpa using hb)
      have ih' := ih (fun u hu => h u (by rw [hfind]; exact hu))
      simp only [updateFirst]
      rw [if_neg hb, ih']

/-- The ids of the collection are untouched by `updateFirst` with an
id-preserving update function. -/
theorem updateFirst_map_id (todos : List Todo) (id : Int) (f : Todo → Todo)
    (hf : ∀ t, (f t).id = t.id) :
    todoIds (updateFirst todos id f) = todoIds todos := by
  induction todos with
  | nil => rfl
  | cons t ts ih =>
    by_cases hb : (t.id == id) = true
    · simp only [updateFirst, hb, if_true, todoIds, List.map_cons, hf]
    · simp only [updateFirst, hb, if_false, todoIds, List.map_cons]
      simpa [todoIds] using ih

/-- Local analogue of `updateFirst_map_id`. -/
theorem updateFirstL_map_id (todos : List LTodo) (id : Int) (f : LTodo → LTodo)
    (hf : ∀ t, (f t).id = t.id) :
    ltodoIds (updateFirstL todos id f) = ltodoIds todos := by
  induction todos with
  | nil => rfl
  | cons t ts ih =>
    by_cases hb : (t.id == id) = true
    · simp only [updateFirstL, hb, if_true, ltodoIds, List.map_cons, hf]
    · simp only [updateFirstL, hb, if_false, ltodoIds, List.map_cons]
      simpa [ltodoIds] using ih

/-- Failed-delete rollback restores the collection exactly, given that ids
are unique: the optimistic `filter` removes exactly the record at the found
index, and the `splice` puts the backup back at that index. -/
theorem deleteTodo_error_eq (todos : List Todo) (id : Int) (e : ApiError)
    (h : (todoIds todos).Nodup) :
    (deleteTodo todos id (Except.error e)).1 = todos := by
  induction todos with
  | nil => rfl
  | cons t ts ih =>
    have hcons := List.nodup_cons.mp (h : (t.id :: ts.map Todo.id).Nodup)
    by_cases hb : (t.id == id) = true
    · have hid : t.id = id := by simpa using hb
      have hfil : ts.filter (fun x => !(x.id == id)) = ts := by
        apply List.filter_eq_self.mpr
        intro x hx
        have : x.id ≠ id := by
          intro hxe
          exact hcons.1 (by rw [hid, ← hxe]; exact List.mem_map_of_mem Todo.id hx)
        simpa using this
      simp [deleteTodo, findIndex, hb, hid, hfil]
    · rcases hfi : findIndex (fun t => t.id == id) ts with _ | j
      · simp [deleteTodo, findIndex, hb, hfi]
      · rcases hj : ts[j]? with _ | b
        · simp [deleteTodo, findIndex, hb, hfi, hj]
        · have ihts := ih hcons.2
          simp only [deleteTodo, hfi, hj] at ihts
          simp [deleteTodo, findIndex, hb, hfi, hj, List.insertIdx_succ_cons, ihts]

/-! ### Claim theorems -/

/-- C1: when the confirming `PUT` of `toggleTodo(id)` fails, the rollback
restores the record's pre-toggle `completed` value exactly — in fact the whole
collection is unchanged, whatever it contained before. -/
theorem toggleTodo_rollback_exact (todos : List Todo) (id : Int) (e : ApiError) :
    (toggleTodo todos id (Except.error e)).1 = todos := by
  rcases hf : todos.find? (fun t => t.id == id) with _ | todo
  · simp [toggleTodo, hf]
  · have : updateFirst todos id (fun t => { t with completed := todo.completed }) = todos := by
      apply updateFirst_eq_self
      intro u hu
      have : u = todo := by rw [hf] at hu; exact ((Option.some.injEq _ _).mp hu).symm
      rw [this]
    simp [toggleTodo, hf, this]

/-- C2: when the confirming `DELETE` of `deleteTodo(id)` fails, the backup
record is spliced back at its original index, so (ids being unique in the
collection) the final collection equals the original one. -/
theorem deleteTodo_rollback_exact (todos : List Todo) (id : Int) (e : ApiError)
    (h : (todoIds todos).Nodup) :
    (deleteTodo todos id (Except.error e)).1 = todos :=
  deleteTodo_error_eq todos id e h

/-- Witness for C2: deleting the middle record of a 3-record collection with a
failing request leaves the collection exactly as it was, order included. -/
theorem deleteTodo_rollback_exact_witness :
    (deleteTodo
      [{ id := 1, title := "A", completed := false, createdAt := none, isEditing := false },
       { id := 2, title := "B", completed := true, createdAt := none, isEditing := false },
       { id := 3, title := "C", completed := false, createdAt := none, isEditing := false }]
      2 (Except.error ApiError.request)).1
    = [{ id := 1, title := "A", completed := false, createdAt := none, isEditing := false },
       { id := 2, title := "B", completed := true, createdAt := none, isEditing := false },
       { id := 3, title := "C", completed := false, createdAt := none, isEditing := false }] :=
  deleteTodo_rollback_exact _ 2 ApiError.request (by decide)

/-- C3: when any one of the concurrent deletions of `clearCompleted` fails,
the `Promise.all` conjunction rejects, the optimistic local filter is skipped,
and the final collection is exactly what re-running `fetchTodos` produces. -/
theorem clearCompleted_resync_on_failure (todos : List Todo)
    (deleteResult : Int → Except ApiError Unit)
    (reloadResp : Except ApiError FetchData)
    (h : ∃ t ∈ todos.filter (fun t => t.completed), (deleteResult t.id).isOk = false) :
    (clearCompleted todos deleteResult reloadResp).1 = (fetchTodos todos reloadResp).1 := by
  obtain ⟨t, ht, hfail⟩ := h
  have hall : (todos.filter (fun t => t.completed)).all
      (fun t => (deleteResult t.id).isOk) = false := by
    rcases hb : (todos.filter (fun t => t.completed)).all
        (fun t => (deleteResult t.id).isOk) with _ | _
    · exact hb
    · have := (List.all_eq_true.mp hb) t ht
      rw [hfail] at this
      exact absurd this (by simp)
  simp only [clearCompleted, hall, Bool.false_eq_true, if_false]

/-- Witness for C3 (Scenario C): a two-record collection with one completed
record whose deletion fails resynchronizes via a fresh load. -/
theorem clearCompleted_resync_on_failure_witness :
    (clearCompleted
      [{ id := 1, title := "a", completed := true, createdAt := none, isEditing := false },
       { id := 2, title := "b", completed := false, createdAt := none, isEditing := false }]
      (fun i => if i == 1 then Except.error ApiError.request else Except.ok ())
      (Except.ok (FetchData.arr []))).1
    = (fetchTodos
        [{ id := 1, title := "a", completed := true, createdAt := none, isEditing := false },
         { id := 2, title := "b", completed := false, createdAt := none, isEditing := false }]
        (Except.ok (FetchData.arr []))).1 :=
  clearCompleted_resync_on_failure _ _ _
    ⟨{ id := 1, title := "a", completed := true, createdAt := none, isEditing := false },
     by decide, by decide⟩

/-- C4 evidence: because `...options` is spread after the `headers` field, a
caller-supplied `headers` object replaces the merged default entirely, so the
default JSON content type is dropped whenever the caller passes any headers;
only a call without a `headers` key carries the default. -/
theorem apiRequestInit_headers_clobbered :
    (apiRequestInit { headers := some [("X-Request-Token", "abc")] }).headers
      = some [("X-Request-Token", "abc")] ∧
    lookupHeader
      ((apiRequestInit { headers := some [("X-Request-Token", "abc")] }).headers.getD [])
      "Content-Type" = none ∧
    (apiRequestInit {}).headers = some [("Content-Type", "application/json")] :=
  ⟨rfl, rfl, rfl⟩

/-- C7: an input whose trimmed form is empty makes `addTodo` a complete no-op
in both variants — the collection is unchanged, no request is issued, and no
storage write happens. -/
theorem addTodo_empty_trim_noop (todos : List Todo) (ltodos : List LTodo)
    (raw : String) (resp : Except ApiError ServerTodo) (now : Int)
    (h : jsTrim raw = "") :
    addTodo todos raw resp = (todos, []) ∧ localAddTodo ltodos raw now = (ltodos, none) := by
  constructor
  · simp [addTodo, h]
  · simp [localAddTodo, h]

/-- Witness for C7 (P5): adding the whitespace title changes nothing. -/
theorem addTodo_empty_trim_noop_witness :
    addTodo [] "   " (Except.error ApiError.request) = ([], []) ∧
    localAddTodo [] "   " 5 = ([], none) :=
  addTodo_empty_trim_noop [] [] "   " (Except.error ApiError.request) 5 (by decide)

/-- C8 counterexample: normalization uses JavaScript truthiness, not field
presence — a raw item whose `title` field is present but empty falls through
to the legacy `text` field, so the normalized title is not the raw `title`
field's value. -/
theorem normalizeTodo_empty_title_falls_through :
    ({ id := 1, title := some "", text := some "x",
       completed := Json.bool false } : RawTodo).title = some "" ∧
    (normalizeTodo
      { id := 1, title := some "", text := some "x",
        completed := Json.bool false }).title = "x" ∧
    decide ((normalizeTodo
      { id := 1, title := some "", text := some "x",
        completed := Json.bool false }).title = "") = false :=
  ⟨rfl, rfl, rfl⟩

/-- C8 (amended): the normalized title is the raw `title` field when present
and non-empty, else the raw `text` field when present and non-empty, else the
empty string; `completed` is the boolean coercion of the raw value, and
`isEditing` is reset to false; `id` and `createdAt` pass through. -/
theorem normalizeTodo_spec (r : RawTodo) :
    (∀ s, r.title = some s → s ≠ "" → (normalizeTodo r).title = s) ∧
    (∀ s, (r.title = none ∨ r.title = some "") → r.text = some s → s ≠ "" →
      (normalizeTodo r).title = s) ∧
    ((r.title = none ∨ r.title = some "") → (r.text = none ∨ r.text = some "") →
      (normalizeTodo r).title = "") ∧
    (normalizeTodo r).completed = r.completed.truthy ∧
    (normalizeTodo r).isEditing = false ∧
    (normalizeTodo r).id = r.id ∧
    (normalizeTodo r).createdAt = r.createdAt := by
  refine ⟨?_, ?_, ?_, rfl, rfl, rfl, rfl⟩
  · intro s hs hne
    simp [normalizeTodo, orStr, hs, hne]
  · intro s htitle htext hne
    rcases htitle with h1 | h1 <;> simp [normalizeTodo, orStr, h1, htext, hne]
  · intro htitle htext
    rcases htitle with h1 | h1 <;> rcases htext with h2 | h2 <;>
      simp [normalizeTodo, orStr, h1, h2]

/-- Witness for C8 (P6): the raw item with only a legacy `text` field loads
with that text as its title. -/
theorem normalizeTodo_spec_witness :
    (normalizeTodo { id := 1, text := some "x", completed := Json.bool false }).title = "x" :=
  (normalizeTodo_spec { id := 1, text := some "x", completed := Json.bool false }).2.1
    "x" (Or.inl rfl) rfl (by decide)

/-- C9: in both variants, the `active` and `completed` projections of
`filteredTodos` partition the collection — together they contain exactly the
collection's records, they share none, and each preserves the original
order (it is a sublist of the input, which the pure function leaves intact). -/
theorem filteredTodos_partition (c : List Todo) (lc : List LTodo) :
    (∀ t : Todo, t ∈ c ↔
      t ∈ filteredTodos c FilterMode.active ∨ t ∈ filteredTodos c FilterMode.completed) ∧
    (∀ t : Todo, t ∈ filteredTodos c FilterMode.active →
      t ∈ filteredTodos c FilterMode.completed → False) ∧
    (filteredTodos c FilterMode.active).Sublist c ∧
    (filteredTodos c FilterMode.completed).Sublist c ∧
    (∀ t : LTodo, t ∈ lc ↔
      t ∈ localFilteredTodos lc FilterMode.active ∨
      t ∈ localFilteredTodos lc FilterMode.completed) ∧
    (∀ t : LTodo, t ∈ localFilteredTodos lc FilterMode.active →
      t ∈ localFilteredTodos lc FilterMode.completed → False) ∧
    (localFilteredTodos lc FilterMode.active).Sublist lc ∧
    (localFilteredTodos lc FilterMode.completed).Sublist lc := by
  refine ⟨?_, ?_, List.filter_sublist c, List.filter_sublist c,
    ?_, ?_, List.filter_sublist lc, List.filter_sublist lc⟩
  · intro t
    simp only [filteredTodos, List.mem_filter]
    rcases hc : t.completed <;> simp [hc]
  · intro t h1 h2
    simp only [filteredTodos, List.mem_filter] at h1 h2
    rw [h2.2] at h1
    exact absurd h1.2 (by simp)
  · intro t
    simp only [localFilteredTodos, List.mem_filter]
    rcases hc : t.completed <;> simp [hc]
  · intro t h1 h2
    simp only [localFilteredTodos, List.mem_filter] at h1 h2
    rw [h2.2] at h1
    exact absurd h1.2 (by simp)

/-- Witness for C9 at a concrete two-record collection: the active projection
is a sublist and the incomplete record belongs to one of the two parts. -/
theorem filteredTodos_partition_witness :
    (filteredTodos
      [{ id := 1, title := "a", completed := false, createdAt := none, isEditing := false },
       { id := 2, title := "b", completed := true, createdAt := none, isEditing := false }]
      FilterMode.active).Sublist
      [{ id := 1, title := "a", completed := false, createdAt := none, isEditing := false },
       { id := 2, title := "b", completed := true, createdAt := none, isEditing := false }] ∧
    (({ id := 1, title := "a", completed := false, createdAt := none, isEditing := false } : Todo)
      ∈ filteredTodos
        [{ id := 1, title := "a", completed := false, createdAt := none, isEditing := false },
         { id := 2, title := "b", completed := true, createdAt := none, isEditing := false }]
        FilterMode.active ∨
    ({ id := 1, title := "a", completed := false, createdAt := none, isEditing := false } : Todo)
      ∈ filteredTodos
        [{ id := 1, title := "a", completed := false, createdAt := none, isEditing := false },
         { id := 2, title := "b", completed := true, createdAt := none, isEditing := false }]
        FilterMode.completed) :=
  ⟨(filteredTodos_partition _ ([] : List LTodo)).2.2.1,
   ((filteredTodos_partition _ ([] : List LTodo)).1 _).mp (by decide)⟩

/-- C10: the active-items counter agrees with the length of the `active`
filter projection, in both variants. -/
theorem activeTodosCount_eq_filtered_length (c : List Todo) (lc : List LTodo) :
    activeTodosCount c = (filteredTodos c FilterMode.active).length ∧
    localActiveTodosCount lc = (localFilteredTodos lc FilterMode.active).length :=
  ⟨rfl, rfl⟩

/-! ### Id-uniqueness preservation lemmas, one per operation -/

/-- A load whose payload has duplicate-free ids yields duplicate-free ids. -/
theorem fetchTodos_ids_nodup (todos : List Todo) (resp : Except ApiError FetchData)
    (h : (todoIds todos).Nodup)
    (hresp : ∀ d, resp = Except.ok d → ((extractTodoArray d).map RawTodo.id).Nodup) :
    (todoIds (fetchTodos todos resp).1).Nodup := by
  cases resp with
  | error e => simpa [fetchTodos, todoIds] using h
  | ok d =>
    have := hresp d rfl
    simpa [fetchTodos, todoIds, List.map_map, Function.comp, normalizeTodo] using this

/-- Adding a record whose server-assigned id is fresh preserves uniqueness. -/
theorem addTodo_ids_nodup (todos : List Todo) (title : String)
    (resp : Except ApiError ServerTodo)
    (h : (todoIds todos).Nodup)
    (hfresh : ∀ d, resp = Except.ok d → d.id ∉ todoIds todos) :
    (todoIds (addTodo todos title resp).1).Nodup := by
  by_cases ht : jsTrim title = ""
  · simpa [addTodo, ht, todoIds] using h
  · cases resp with
    | error e => simpa [addTodo, ht, todoIds] using h
    | ok d =>
      have hf := hfresh d rfl
      have : todoIds (addTodo todos title (Except.ok d)).1 = d.id :: todoIds todos := by
        simp [addTodo, ht, todoIds]
      rw [this]
      exact List.nodup_cons.mpr ⟨hf, h⟩

/-- Toggling never changes the id list. -/
theorem toggleTodo_ids (todos : List Todo) (id : Int)
    (resp : Except ApiError ServerTodo) :
    todoIds (toggleTodo todos id resp).1 = todoIds todos := by
  rcases hf : todos.find? (fun t => t.id == id) with _ | todo
  · simp [toggleTodo, hf]
  · cases resp with
    | ok u =>
      simp only [toggleTodo, hf]
      exact updateFirst_map_id _ _ _ (fun _ => rfl)
    | error e =>
      simp only [toggleTodo, hf]
      exact updateFirst_map_id _ _ _ (fun _ => rfl)

/-- Renaming never changes the id list. -/
theorem saveEdit_ids (todos : List Todo) (id : Int) (edited : String)
    (resp : Except ApiError ServerTodo) :
    todoIds (saveEdit todos id edited resp).1 = todoIds todos := by
  rcases hf : todos.find? (fun t => t.id == id) with _ | todo
  · simp [saveEdit, hf]
  · by_cases ht : jsTrim edited = ""
    · simp only [saveEdit, hf, ht, if_true]
      exact updateFirst_map_id _ _ _ (fun _ => rfl)
    · cases resp with
      | ok u =>
        simp only [saveEdit, hf, ht, if_false]
        exact updateFirst_map_id _ _ _ (fun _ => rfl)
      | error e =>
        simp only [saveEdit, hf, ht, if_false]
        exact updateFirst_map_id _ _ _ (fun _ => rfl)

/-- Starting an edit never changes the id list. -/
theorem startEditing_ids (todos : List Todo) (id : Int) :
    todoIds (startEditing todos id) = todoIds todos :=
  updateFirst_map_id _ _ _ (fun _ => rfl)

/-- Cancelling an edit never changes the id list. -/
theorem cancelEdit_ids (todos : List Todo) (id : Int) :
    todoIds (cancelEdit todos id) = todoIds todos :=
  updateFirst_map_id _ _ _ (fun _ => rfl)

/-- Deletion preserves uniqueness of ids (removal on success, exact rollback
on failure). -/
theorem deleteTodo_ids_nodup (todos : List Todo) (id : Int)
    (resp : Except ApiError Unit) (h : (todoIds todos).Nodup) :
    (todoIds (deleteTodo todos id resp).1).Nodup := by
  cases resp with
  | error e => rw [deleteTodo_error_eq todos id e h]; exact h
  | ok u =>
    rcases hfi : findIndex (fun t => t.id == id) todos with _ | i
    · simpa [deleteTodo, hfi, todoIds] using h
    · rcases hj : todos[i]? with _ | b
      · simpa [deleteTodo, hfi, hj, todoIds] using h
      · have heq : (deleteTodo todos id (Except.ok u)).1
            = todos.filter (fun t => !(t.id == id)) := by
          simp [deleteTodo, hfi, hj]
        rw [heq]
        exact List.Nodup.sublist ((List.filter_sublist todos).map Todo.id) h

/-- Bulk clear preserves uniqueness: local filtering on full success, a
duplicate-free reload on any failure. -/
theorem clearCompleted_ids_nodup (todos : List Todo)
    (deleteResult : Int → Except ApiError Unit)
    (reloadResp : Except ApiError FetchData)
    (h : (todoIds todos).Nodup)
    (hresp : ∀ d, reloadResp = Except.ok d → ((extractTodoArray d).map RawTodo.id).Nodup) :
    (todoIds (clearCompleted todos deleteResult reloadResp).1).Nodup := by
  by_cases hall : (todos.filter (fun t => t.completed)).all
      (fun t => (deleteResult t.id).isOk) = true
  · have heq : (clearCompleted todos deleteResult reloadResp).1
        = todos.filter (fun t => !t.completed) := by
      simp [clearCompleted, hall]
    rw [heq]
    exact List.Nodup.sublist ((List.filter_sublist todos).map Todo.id) h
  · have hall' : (todos.filter (fun t => t.completed)).all
        (fun t => (deleteResult t.id).isOk) = false :=
      Bool.eq_false_iff.mpr hall
    have heq : (clearCompleted todos deleteResult reloadResp).1
        = (fetchTodos todos reloadResp).1 := by
      simp only [clearCompleted, hall', Bool.false_eq_true, if_false]
    rw [heq]
    exact fetchTodos_ids_nodup _ _ h hresp

/-- Local add with a fresh timestamp preserves uniqueness. -/
theorem localAddTodo_ids_nodup (todos : List LTodo) (title : String) (now : Int)
    (h : (ltodoIds todos).Nodup) (hfresh : now ∉ ltodoIds todos) :
    (ltodoIds (localAddTodo todos title now).1).Nodup := by
  by_cases ht : jsTrim title = ""
  · simpa [localAddTodo, ht, ltodoIds] using h
  · have heq : ltodoIds (localAddTodo todos title now).1 = now :: ltodoIds todos := by
      simp [localAddTodo, ht, ltodoIds]
    rw [heq]
    exact List.nodup_cons.mpr ⟨hfresh, h⟩

/-- Local toggle never changes the id list. -/
theorem localToggleTodo_ids (todos : List LTodo) (id : Int) :
    ltodoIds (localToggleTodo todos id).1 = ltodoIds todos := by
  rcases hf : todos.find? (fun t => t.id == id) with _ | todo
  · simp [localToggleTodo, hf]
  · simp only [localToggleTodo, hf]
    exact updateFirstL_map_id _ _ _ (fun _ => rfl)

/-- Local delete preserves uniqueness. -/
theorem localDeleteTodo_ids_nodup (todos : List LTodo) (id : Int)
    (h : (ltodoIds todos).Nodup) :
    (ltodoIds (localDeleteTodo todos id).1).Nodup :=
  List.Nodup.sublist ((List.filter_sublist todos).map LTodo.id) h

/-- Local bulk clear preserves uniqueness. -/
theorem localClearCompleted_ids_nodup (todos : List LTodo)
    (h : (ltodoIds todos).Nodup) :
    (ltodoIds (localClearCompleted todos).1).Nodup :=
  List.Nodup.sublist ((List.filter_sublist todos).map LTodo.id) h

/-- Local rename never changes the id list. -/
theorem localSaveEdit_ids (todos : List LTodo) (id : Int) (edited : String) :
    ltodoIds (localSaveEdit todos id edited).1 = ltodoIds todos := by
  by_cases ht : jsTrim edited = ""
  · simp [localSaveEdit, ht]
  · simp only [localSaveEdit, ht, if_false]
    exact updateFirstL_map_id _ _ _ (fun _ => rfl)

/-- Local edit-flag operations never change the id list. -/
theorem localStartEditing_ids (todos : List LTodo) (id : Int) :
    ltodoIds (localStartEditing todos id) = ltodoIds todos :=
  updateFirstL_map_id _ _ _ (fun _ => rfl)

/-- Local cancel never changes the id list. -/
theorem localCancelEdit_ids (todos : List LTodo) (id : Int) :
    ltodoIds (localCancelEdit todos id) = ltodoIds todos :=
  updateFirstL_map_id _ _ _ (fun _ => rfl)

/-- C5 counterexample: the local variant assigns `Date.now()` as the id, and
nothing prevents two adds from observing the same millisecond timestamp; two
adds at the same instant produce two records with the same id, so the
uniqueness invariant fails on a reachable state of the code as written. -/
theorem localAddTodo_duplicate_ids :
    ltodoIds (localAddTodo (localAddTodo [] "a" 100).1 "b" 100).1 = [100, 100] ∧
    decide ((ltodoIds (localAddTodo (localAddTodo [] "a" 100).1 "b" 100).1).Nodup) = false :=
  ⟨rfl, rfl⟩

/-- C5 (amended): ids are unique in every state reachable from the empty
collection provided the environment never hands the client a duplicate —
each successful add carries an id not already in the collection (a fresh
timestamp locally, a fresh server id remotely) and every applied load payload
has duplicate-free ids. The client itself performs no deduplication. -/
theorem ids_unique_invariant :
    (∀ s, RReachable s → (todoIds s).Nodup) ∧
    (∀ s, LReachable s → (ltodoIds s).Nodup) := by
  constructor
  · intro s hs
    rw [RReachable] at hs
    induction hs with
    | refl => simp [todoIds]
    | tail hab hbc ih =>
      cases hbc with
      | fetch resp h => exact fetchTodos_ids_nodup _ _ ih h
      | add title resp h => exact addTodo_ids_nodup _ _ _ ih h
      | toggle id resp => rw [toggleTodo_ids]; exact ih
      | rename id edited resp => rw [saveEdit_ids]; exact ih
      | remove id resp => exact deleteTodo_ids_nodup _ _ _ ih
      | clear deleteResult reloadResp h => exact clearCompleted_ids_nodup _ _ _ ih h
      | startEdit id => rw [startEditing_ids]; exact ih
      | cancel id => rw [cancelEdit_ids]; exact ih
  · intro s hs
    rw [LReachable] at hs
    induction hs with
    | refl => simp [ltodoIds]
    | tail hab hbc ih =>
      cases hbc with
      | add title now h => exact localAddTodo_ids_nodup _ _ _ ih h
      | toggle id => rw [localToggleTodo_ids]; exact ih
      | remove id => exact localDeleteTodo_ids_nodup _ _ ih
      | clear => exact localClearCompleted_ids_nodup _ ih
      | rename id edited => rw [localSaveEdit_ids]; exact ih
      | startEdit id => rw [localStartEditing_ids]; exact ih
      | cancel id => rw [localCancelEdit_ids]; exact ih
      | load stored h =>
        cases stored with
        | none => exact ih
        | some l => exact h l rfl

/-- Witness for the amended C5: one successful add of a fresh server record
starting from the empty collection reaches a state with unique ids. -/
theorem ids_unique_invariant_witness :
    (todoIds (addTodo [] "a"
      (Except.ok { id := 1, title := "a", completed := false, createdAt := none })).1).Nodup :=
  ids_unique_invariant.1 _
    (Relation.ReflTransGen.single
      (RStep.add [] "a"
        (Except.ok { id := 1, title := "a", completed := false, createdAt := none })
        (by intro d hd; simp [todoIds])))

/-- C6 counterexample: in the local variant `saveTodos` serializes the whole
record with `JSON.stringify`, `isEditing` included, and the mount-time load
parses the slot verbatim with no reset. Starting an edit on record 1 and then
toggling record 2 writes a storage value in which record 1 carries
`isEditing: true`; loading that value yields a record whose `isEditing` is
`true`, not `false`. -/
theorem isEditing_persisted_by_local_variant :
    (localToggleTodo
      (localStartEditing
        [{ id := 1, text := "a", completed := false, createdAt := 0, isEditing := false },
         { id := 2, text := "b", completed := false, createdAt := 0, isEditing := false }] 1)
      2).2
      = some (serializeLTodos
          [{ id := 1, text := "a", completed := false, createdAt := 0, isEditing := true },
           { id := 2, text := "b", completed := true, createdAt := 0, isEditing := false }]) ∧
    Json.lookupField
      (serializeLTodo
        { id := 1, text := "a", completed := false, createdAt := 0, isEditing := true })
      "isEditing" = some (Json.bool true) ∧
    localLoad []
      (some [{ id := 1, text := "a", completed := false, createdAt := 0, isEditing := true }])
      = [{ id := 1, text := "a", completed := false, createdAt := 0, isEditing := true }] ∧
    ({ id := 1, text := "a", completed := false, createdAt := 0,
       isEditing := true } : LTodo).isEditing = true :=
  ⟨rfl, rfl, rfl, rfl⟩

/-- C6 (amended): in the remote variant the `isEditing` flag is never part of
any request body and every record produced by load has `isEditing = false`;
in the local variant, however, the flag is serialized into the stored record
like every other field, and the mount-time load restores the stored records
verbatim instead of resetting the flag. -/
theorem isEditing_transport :
    (∀ r : RawTodo, (normalizeTodo r).isEditing = false) ∧
    (∀ title : String, Json.lookupField (addBody title) "isEditing" = none) ∧
    (∀ (title : String) (completed : Bool),
      Json.lookupField (updateBody title completed) "isEditing" = none) ∧
    (∀ t : LTodo,
      Json.lookupField (serializeLTodo t) "isEditing" = some (Json.bool t.isEditing)) ∧
    (∀ (todos stored : List LTodo), localLoad todos (some stored) = stored) :=
  ⟨fun _ => rfl, fun _ => rfl, fun _ _ => rfl, fun _ => rfl, fun _ _ => rfl⟩
